import Mathlib

/-!
Verification of the NexGen order-orchestration engine (src/app.py).

The engine is embedded shallowly: pandas data frames become Lean lists of
structures, numeric columns become `ℚ` (the floating-point arithmetic of the
source is modelled exactly over the rationals), missing values become
`Option`, and the Streamlit submit handler becomes a pure function returning
a sum type for the no-inventory / no-route / success outcomes.
-/

namespace NexGen

/-! ## String utilities

`routes["route"].str.contains(destination, case=False, na=False)` needs a
case-insensitive substring test; Python's substring containment is modelled
over lists of characters. -/

/-- `leadsL n h` is true when character list `n` is an initial segment of `h`. -/
def leadsL : List Char → List Char → Bool
  | [], _ => true
  | _ :: _, [] => false
  | a :: as, b :: bs => a == b && leadsL as bs

/-- `hasSubL h n` is true when `n` occurs contiguously inside `h`
(Python's `n in h`). -/
def hasSubL : List Char → List Char → Bool
  | [], n => n.isEmpty
  | h@(_ :: t), n => leadsL n h || hasSubL t n

/-- Lower-casing of a string (`.str.lower()`), characterwise. -/
def lowerStr (s : String) : String := String.mk (s.data.map Char.toLower)

/-- Literal case-insensitive substring containment — the specification's
notion of destination matching.  This is NOT what
`.str.contains(destination, case=False)` computes in general (its default
is `regex=True`); it coincides with the regex matcher exactly on
metacharacter-free patterns (`reHasSub_eq_hasSubL` below). -/
def strContainsCI (hay needle : String) : Bool :=
  hasSubL (hay.data.map Char.toLower) (needle.data.map Char.toLower)

/-- Python regular-expression metacharacters (`re` special characters).
A pattern containing none of these is matched by `re.search` exactly as a
literal substring. -/
def isReMeta (c : Char) : Bool :=
  c == '.' || c == '^' || c == '$' || c == '*' || c == '+' || c == '?' ||
  c == '\x7b' || c == '\x7d' || c == '[' || c == ']' || c == '(' ||
  c == ')' || c == '\\' || c == '|'

/-- One step of `re.search`-style matching of a pattern at the start of a
string: a literal character matches itself, and the `.` wildcard matches
any character except a newline.  Faithful to Python `re` for the fragment
whose only metacharacter is `.`; patterns using other metacharacters are
outside this model (e.g. an unbalanced `(` raises `re.error` in the
program). -/
def reLeads : List Char → List Char → Bool
  | [], _ => true
  | _ :: _, [] => false
  | p :: ps, c :: cs =>
    ((p == '.' && !(c == Char.ofNat 10)) || p == c) && reLeads ps cs

/-- `re.search(pat, h) is not None`: the pattern matches at some position
of the string (for the literal-and-dot regex fragment). -/
def reHasSub : List Char → List Char → Bool
  | [], pat => pat.isEmpty
  | h@(_ :: t), pat => reLeads pat h || reHasSub t pat

/-- `.str.contains(needle, case=False, na=False)` on a present label: the
default `regex=True` interprets `needle` as a regular expression, matched
case-insensitively (modelled by lower-casing both sides, which agrees with
`re.IGNORECASE` on ASCII).  Embedded for the literal-and-dot regex
fragment. -/
def strContainsRe (hay needle : String) : Bool :=
  reHasSub (hay.data.map Char.toLower) (needle.data.map Char.toLower)

theorem reLeads_eq_leadsL {pat : List Char}
    (hp : ∀ c ∈ pat, (c == '.') = false) :
    ∀ h : List Char, reLeads pat h = leadsL pat h := by
  induction pat with
  | nil => intro h; cases h <;> rfl
  | cons p ps ih =>
    intro h
    cases h with
    | nil => rfl
    | cons c cs =>
      have hp1 : (p == '.') = false := hp p (List.mem_cons_self p ps)
      simp only [reLeads, leadsL, hp1, Bool.false_and, Bool.false_or]
      rw [ih (fun c hc => hp c (List.mem_cons_of_mem p hc)) cs]

theorem reHasSub_eq_hasSubL {pat : List Char}
    (hp : ∀ c ∈ pat, (c == '.') = false) :
    ∀ h : List Char, reHasSub h pat = hasSubL h pat := by
  intro h
  induction h with
  | nil => rfl
  | cons c cs ih =>
    simp only [reHasSub, hasSubL, reLeads_eq_leadsL hp, ih]

theorem leadsL_iff (n : List Char) : ∀ h : List Char,
    leadsL n h = true ↔ ∃ t, h = n ++ t := by
  induction n with
  | nil =>
    intro h
    simp [leadsL]
  | cons a as ih =>
    intro h
    cases h with
    | nil =>
      simp [leadsL]
    | cons b bs =>
      simp only [leadsL, Bool.and_eq_true, beq_iff_eq, ih bs, List.cons_append,
        List.cons.injEq]
      constructor
      · rintro ⟨rfl, t, rfl⟩
        exact ⟨t, rfl, rfl⟩
      · rintro ⟨t, rfl, rfl⟩
        exact ⟨rfl, t, rfl⟩

theorem hasSubL_iff (h n : List Char) :
    hasSubL h n = true ↔ ∃ p t, h = p ++ n ++ t := by
  induction h with
  | nil =>
    simp only [hasSubL, List.isEmpty_iff]
    constructor
    · rintro rfl
      exact ⟨[], [], rfl⟩
    · rintro ⟨p, t, hpt⟩
      rcases List.append_eq_nil.mp hpt.symm with ⟨hpn, rfl⟩
      exact (List.append_eq_nil.mp hpn).2
  | cons c h' ih =>
    simp only [hasSubL, Bool.or_eq_true, leadsL_iff, ih]
    constructor
    · rintro (⟨t, ht⟩ | ⟨p, t, hpt⟩)
      · exact ⟨[], t, by simp [ht]⟩
      · exact ⟨c :: p, t, by simp [hpt]⟩
    · rintro ⟨p, t, hpt⟩
      cases p with
      | nil =>
        exact Or.inl ⟨t, by simpa using hpt⟩
      | cons q p' =>
        simp only [List.cons_append, List.cons.injEq] at hpt
        exact Or.inr ⟨p', t, hpt.2⟩

/-! ## Numeric utilities -/

/-- Column minimum, as pandas `col.min()` over a non-empty column
(the value on an empty column is irrelevant to every claim). -/
def colMin : List ℚ → ℚ
  | [] => 0
  | x :: xs => xs.foldl min x

/-- Column maximum, as pandas `col.max()`. -/
def colMax : List ℚ → ℚ
  | [] => 0
  | x :: xs => xs.foldl max x

/-- The ε constant `1e-6` of the source's `normalize`. -/
def epsQ : ℚ := 1e-6

/-- The per-entry value of `normalize`: the entry `x` of a column `col`
is sent to `(x - col.min()) / (col.max() - col.min() + 1e-6)`. -/
def normEntry (col : List ℚ) (x : ℚ) : ℚ :=
  (x - colMin col) / (colMax col - colMin col + epsQ)

/-- `normalize(col) = (col - col.min()) / (col.max() - col.min() + 1e-6)`,
line 75-76 of src/app.py, applied entrywise. -/
def normalize (col : List ℚ) : List ℚ :=
  col.map (normEntry col)

/-- Column mean, as pandas `col.mean()` on a non-empty column. -/
def meanQ (l : List ℚ) : ℚ := l.sum / (l.length : ℚ)

theorem foldl_min_le (xs : List ℚ) : ∀ a : ℚ,
    xs.foldl min a ≤ a ∧ ∀ x ∈ xs, xs.foldl min a ≤ x := by
  induction xs with
  | nil => intro a; simp
  | cons y ys ih =>
    intro a
    have h := ih (min a y)
    refine ⟨le_trans h.1 (min_le_left a y), ?_⟩
    intro x hx
    rcases List.mem_cons.mp hx with rfl | hx'
    · exact le_trans h.1 (min_le_right a x)
    · exact h.2 x hx'

theorem le_foldl_max (xs : List ℚ) : ∀ a : ℚ,
    a ≤ xs.foldl max a ∧ ∀ x ∈ xs, x ≤ xs.foldl max a := by
  induction xs with
  | nil => intro a; simp
  | cons y ys ih =>
    intro a
    have h := ih (max a y)
    refine ⟨le_trans (le_max_left a y) h.1, ?_⟩
    intro x hx
    rcases List.mem_cons.mp hx with rfl | hx'
    · exact le_trans (le_max_right a x) h.1
    · exact h.2 x hx'

theorem colMin_le {col : List ℚ} {x : ℚ} (hx : x ∈ col) : colMin col ≤ x := by
  cases col with
  | nil => cases hx
  | cons y ys =>
    rcases List.mem_cons.mp hx with rfl | hx'
    · exact (foldl_min_le ys x).1
    · exact (foldl_min_le ys y).2 x hx'

theorem le_colMax {col : List ℚ} {x : ℚ} (hx : x ∈ col) : x ≤ colMax col := by
  cases col with
  | nil => cases hx
  | cons y ys =>
    rcases List.mem_cons.mp hx with rfl | hx'
    · exact (le_foldl_max ys x).1
    · exact (le_foldl_max ys y).2 x hx'

theorem colMin_le_colMax {col : List ℚ} (h : col ≠ []) :
    colMin col ≤ colMax col := by
  cases col with
  | nil => exact absurd rfl h
  | cons y ys =>
    exact le_trans (colMin_le (List.mem_cons_self y ys))
      (le_colMax (List.mem_cons_self y ys))

theorem denom_pos {col : List ℚ} (h : col ≠ []) :
    0 < colMax col - colMin col + epsQ := by
  have h1 := colMin_le_colMax h
  have h2 : (0 : ℚ) < epsQ := by norm_num [epsQ]
  linarith

theorem normEntry_nonneg {col : List ℚ} {x : ℚ} (hx : x ∈ col) :
    0 ≤ normEntry col x := by
  have hne : col ≠ [] := List.ne_nil_of_mem hx
  have hm := colMin_le hx
  exact div_nonneg (by linarith) (le_of_lt (denom_pos hne))

theorem normEntry_le_one {col : List ℚ} {x : ℚ} (hx : x ∈ col) :
    normEntry col x ≤ 1 := by
  have hne : col ≠ [] := List.ne_nil_of_mem hx
  have hM := le_colMax hx
  have h2 : (0 : ℚ) < epsQ := by norm_num [epsQ]
  rw [normEntry, div_le_one (denom_pos hne)]
  linarith

theorem foldl_min_const {k : ℚ} (xs : List ℚ) (h : ∀ x ∈ xs, x = k) :
    xs.foldl min k = k := by
  induction xs with
  | nil => rfl
  | cons y ys ih =>
    have hy : y = k := h y (List.mem_cons_self y ys)
    subst hy
    simp only [List.foldl_cons, min_self]
    exact ih fun x hx => h x (List.mem_cons_of_mem y hx)

theorem foldl_max_const {k : ℚ} (xs : List ℚ) (h : ∀ x ∈ xs, x = k) :
    xs.foldl max k = k := by
  induction xs with
  | nil => rfl
  | cons y ys ih =>
    have hy : y = k := h y (List.mem_cons_self y ys)
    subst hy
    simp only [List.foldl_cons, max_self]
    exact ih fun x hx => h x (List.mem_cons_of_mem y hx)

theorem colMin_const {col : List ℚ} {k : ℚ} (hne : col ≠ [])
    (h : ∀ x ∈ col, x = k) : colMin col = k := by
  cases col with
  | nil => exact absurd rfl hne
  | cons y ys =>
    have hy : y = k := h y (List.mem_cons_self y ys)
    subst hy
    exact foldl_min_const ys fun x hx => h x (List.mem_cons_of_mem y hx)

theorem colMax_const {col : List ℚ} {k : ℚ} (hne : col ≠ [])
    (h : ∀ x ∈ col, x = k) : colMax col = k := by
  cases col with
  | nil => exact absurd rfl hne
  | cons y ys =>
    have hy : y = k := h y (List.mem_cons_self y ys)
    subst hy
    exact foldl_max_const ys fun x hx => h x (List.mem_cons_of_mem y hx)

theorem normEntry_const {col : List ℚ} {k x : ℚ} (hx : x ∈ col)
    (h : ∀ y ∈ col, y = k) : normEntry col x = 0 := by
  have hne : col ≠ [] := List.ne_nil_of_mem hx
  have hxk : x = k := h x hx
  rw [normEntry, colMin_const hne h, hxk, sub_self, zero_div]

/-- Claim C2: every entry of `normalize` of a non-empty column lies in
`[0, 1]`, and on a constant column every entry of `normalize` is `0`
(no division by zero, thanks to the `1e-6` term). -/
theorem claim_C2 (col : List ℚ) (hne : col ≠ []) :
    (∀ y ∈ normalize col, 0 ≤ y ∧ y ≤ 1) ∧
    ((∀ a ∈ col, ∀ b ∈ col, a = b) →
      ∀ y ∈ normalize col, y = 0) := by
  constructor
  · intro y hy
    rcases List.mem_map.mp hy with ⟨x, hx, rfl⟩
    exact ⟨normEntry_nonneg hx, normEntry_le_one hx⟩
  · intro hconst y hy
    rcases List.mem_map.mp hy with ⟨x, hx, rfl⟩
    cases col with
    | nil => exact absurd rfl hne
    | cons c cs =>
      exact normEntry_const hx fun z hz =>
        hconst z hz c (List.mem_cons_self c cs)

/-- Witness for C2 at a concrete non-empty column and a concrete constant
column. -/
theorem claim_C2_witness :
    (∀ y ∈ normalize [(3 : ℚ), 7, 5], 0 ≤ y ∧ y ≤ 1) ∧
    (∀ y ∈ normalize [(4 : ℚ), 4, 4], y = 0) := by
  refine ⟨(claim_C2 [(3 : ℚ), 7, 5] (by decide)).1, ?_⟩
  exact (claim_C2 [(4 : ℚ), 4, 4] (by decide)).2 (by decide)

/-! ## Data model

The raw tables, after `clean_columns` has standardized the column names.
Numeric cells are `ℚ`; a cell that may be missing (NaN) or unparseable is an
`Option`. -/

/-- A row of `warehouse_inventory.csv`. -/
structure Warehouse where
  location : String
  product_category : String
  current_stock_units : ℚ
  reorder_level : ℚ
deriving DecidableEq, Repr

/-- A row of `vehicle_fleet.csv`. -/
structure Vehicle where
  vehicle_type : String
  fuel_efficiency_km_per_l : ℚ
  co2_emissions_kg_per_km : ℚ
deriving DecidableEq, Repr

/-- A raw row of `routes_distance.csv`: the route label and the weather
label may be missing, and the traffic delay may be non-numeric (`none`
models both NaN and an unparseable cell, which `pd.to_numeric(...,
errors="coerce")` sends to NaN). -/
structure RouteIn where
  route : Option String
  order_id : String
  distance_km : ℚ
  traffic_delay_minutes : Option ℚ
  weather_impact : Option String
deriving DecidableEq, Repr

/-- A route row after the weather mapping and the traffic-delay coercion
(lines 54-64 of src/app.py). -/
structure Route2 where
  route : Option String
  order_id : String
  distance_km : ℚ
  traffic_delay_minutes : ℚ
  weather_impact : ℚ
deriving DecidableEq, Repr

/-- A row of `delivery_performance.csv` (the columns selected at line 68). -/
structure DeliveryRow where
  order_id : String
  delivery_status : String
  promised_delivery_days : ℚ
  actual_delivery_days : ℚ
  delivery_cost_inr : ℚ
deriving DecidableEq, Repr

/-- A row of `cost_breakdown.csv`: the order id plus the named numeric
cells of the row. -/
structure CostRow where
  order_id : String
  values : List (String × ℚ)
deriving DecidableEq, Repr

/-- The cost table: its column names (as pandas `costs.columns`) and its
rows. -/
structure CostTable where
  columns : List String
  rows : List CostRow
deriving DecidableEq, Repr

/-- A route row after the two left-joins of lines 67-71: the delivery
fields and `total_cost` are `none` on unmatched rows. -/
structure MergedRow where
  route : Option String
  order_id : String
  distance_km : ℚ
  traffic_delay_minutes : ℚ
  weather_impact : ℚ
  delivery_status : Option String
  promised_delivery_days : Option ℚ
  actual_delivery_days : Option ℚ
  delivery_cost_inr : Option ℚ
  total_cost : Option ℚ
deriving DecidableEq, Repr

/-- A fully enriched route row, after the median fill of line 72 and the
`fillna(0)` of line 73: no missing values remain.  (`fillna(0)` writes the
scalar `0` into the object-typed status column; it is rendered `"0"`
here.) -/
structure FinalRoute where
  route : Option String
  order_id : String
  distance_km : ℚ
  traffic_delay_minutes : ℚ
  weather_impact : ℚ
  delivery_status : String
  promised_delivery_days : ℚ
  actual_delivery_days : ℚ
  delivery_cost_inr : ℚ
  total_cost : ℚ
deriving DecidableEq, Repr

/-! ## Preprocessing (lines 51-73 of src/app.py) -/

/-- Lookup of a named cell in a cost row, defaulting to 0 (every selected
column is present in a well-formed table; the default only totalizes the
function). -/
def lookupD (l : List (String × ℚ)) (k : String) : ℚ :=
  match l.find? (fun p => p.1 == k) with
  | some p => p.2
  | none => 0

/-- Line 51: the currency columns,
`[col for col in costs.columns if col.endswith("_inr") and col != "order_id"]`. -/
def cost_columns (t : CostTable) : List String :=
  t.columns.filter (fun c => c.endsWith "_inr" && c != "order_id")

/-- Line 52: `costs["total_cost"] = costs[cost_columns].sum(axis=1)`. -/
def totalCost (t : CostTable) (r : CostRow) : ℚ :=
  ((cost_columns t).map (lookupD r.values)).sum

/-- Line 54: `weather_mapping = {"low": 1, "medium": 2, "high": 3, "severe": 4}`. -/
def weather_mapping (w : String) : Option ℚ :=
  if w = "low" then some 1
  else if w = "medium" then some 2
  else if w = "high" then some 3
  else if w = "severe" then some 4
  else none

/-- Lines 56-62: `routes["weather_impact"].astype(str).str.lower()
.map(weather_mapping).fillna(0)`.  `astype(str)` renders a missing cell as
the string `"nan"`, which the mapping then sends to NaN and `fillna` to 0. -/
def weatherOrdinal (s : Option String) : ℚ :=
  (weather_mapping (lowerStr (match s with
    | some t => t
    | none => "nan"))).getD 0

/-- Lines 54-64 applied to one raw route row: weather labels become
ordinals and the traffic delay is coerced to numeric with NaN → 0. -/
def coerceRoute (r : RouteIn) : Route2 :=
  { route := r.route
    order_id := r.order_id
    distance_km := r.distance_km
    traffic_delay_minutes := r.traffic_delay_minutes.getD 0
    weather_impact := weatherOrdinal r.weather_impact }

/-- Lines 67-70: left-join of the selected delivery columns onto routes by
`order_id`.  As in pandas, a route row is replicated once per matching
delivery row, and an unmatched row keeps the joined fields missing. -/
def mergeDelivery (rs : List Route2) (ds : List DeliveryRow) : List MergedRow :=
  rs.flatMap (fun r =>
    match ds.filter (fun d => d.order_id == r.order_id) with
    | [] => [{ route := r.route, order_id := r.order_id,
               distance_km := r.distance_km,
               traffic_delay_minutes := r.traffic_delay_minutes,
               weather_impact := r.weather_impact,
               delivery_status := none, promised_delivery_days := none,
               actual_delivery_days := none, delivery_cost_inr := none,
               total_cost := none }]
    | ms => ms.map (fun d =>
        { route := r.route, order_id := r.order_id,
          distance_km := r.distance_km,
          traffic_delay_minutes := r.traffic_delay_minutes,
          weather_impact := r.weather_impact,
          delivery_status := some d.delivery_status,
          promised_delivery_days := some d.promised_delivery_days,
          actual_delivery_days := some d.actual_delivery_days,
          delivery_cost_inr := some d.delivery_cost_inr,
          total_cost := none }))

/-- Line 71: left-join of `costs[["order_id", "total_cost"]]` onto the
routes by `order_id`. -/
def mergeCosts (rs : List MergedRow) (t : CostTable) : List MergedRow :=
  rs.flatMap (fun r =>
    match (t.rows.filter (fun c => c.order_id == r.order_id)) with
    | [] => [{ r with total_cost := none }]
    | ms => ms.map (fun c => { r with total_cost := some (totalCost t c) }))

/-- Ascending insertion of a rational into a sorted list. -/
def insertAscQ (x : ℚ) : List ℚ → List ℚ
  | [] => [x]
  | y :: ys => if x ≤ y then x :: y :: ys else y :: insertAscQ x ys

/-- Ascending sort of a rational list. -/
def sortAscQ (l : List ℚ) : List ℚ := l.foldr insertAscQ []

/-- The pandas median of a non-empty list: the middle element of the sorted
list for odd length, the mean of the two middle elements for even length. -/
def medianQ (l : List ℚ) : ℚ :=
  let s := sortAscQ l
  let n := l.length
  if n % 2 = 1 then s.getD (n / 2) 0
  else (s.getD (n / 2 - 1) 0 + s.getD (n / 2) 0) / 2

/-- Line 72: `routes["total_cost"] =
routes["total_cost"].fillna(routes["total_cost"].median())`.  The median
skips missing values, so it is the median of the populated entries as they
stand before the fill; when no entry is populated the median is itself NaN
and the fill is a no-op. -/
def fillTotalCost (rs : List MergedRow) : List MergedRow :=
  let populated := rs.filterMap (fun m => m.total_cost)
  if populated.isEmpty then rs
  else rs.map (fun m =>
    { m with total_cost := some (m.total_cost.getD (medianQ populated)) })

/-- One row of line 73's `routes.fillna(0)`: every still-missing cell
becomes 0. -/
def finalizeRow (m : MergedRow) : FinalRoute :=
  { route := m.route
    order_id := m.order_id
    distance_km := m.distance_km
    traffic_delay_minutes := m.traffic_delay_minutes
    weather_impact := m.weather_impact
    delivery_status := m.delivery_status.getD "0"
    promised_delivery_days := m.promised_delivery_days.getD 0
    actual_delivery_days := m.actual_delivery_days.getD 0
    delivery_cost_inr := m.delivery_cost_inr.getD 0
    total_cost := m.total_cost.getD 0 }

/-- Line 73: `routes.fillna(0, inplace=True)`. -/
def fillZero (rs : List MergedRow) : List FinalRoute :=
  rs.map finalizeRow

/-- Lines 51-73 end to end: weather/traffic coercion, the two left-joins,
the median fill of `total_cost` and the final zero-fill. -/
def preprocess (routes0 : List RouteIn) (ds : List DeliveryRow)
    (t : CostTable) : List FinalRoute :=
  fillZero (fillTotalCost (mergeCosts (mergeDelivery (routes0.map coerceRoute) ds) t))

/-- The median of the populated `total_cost` entries of a merged table. -/
def medTC (rs : List MergedRow) : ℚ :=
  medianQ (rs.filterMap (fun m => m.total_cost))

theorem sum_filter_eq (cols : List String) (p : String → Bool) (f : String → ℚ) :
    ((cols.filter p).map f).sum
      = (cols.map (fun c => if p c then f c else 0)).sum := by
  induction cols with
  | nil => rfl
  | cons c cs ih =>
    by_cases h : p c
    · simp [List.filter_cons, h, ih]
    · simp [List.filter_cons, h, ih]

/-- Claim C7: `total_cost` of a cost record is the sum of the currency
(`_inr`) columns, the order id excluded; after the left-join onto routes,
the missing `total_cost` entries are imputed with the median of the entries
populated before the fill, and the remaining missing values of the merged
table are filled with 0 (so a populated or imputed `total_cost` is never
overwritten by the zero-fill). -/
theorem claim_C7 (t : CostTable) (r : CostRow) (rs : List MergedRow)
    (hpop : rs.filterMap (fun m => m.total_cost) ≠ []) :
    totalCost t r
      = (t.columns.map (fun c =>
          if c.endsWith "_inr" = true ∧ c ≠ "order_id"
          then lookupD r.values c else 0)).sum ∧
    fillTotalCost rs = rs.map (fun m =>
      { m with total_cost := some (m.total_cost.getD (medTC rs)) }) ∧
    (fillZero (fillTotalCost rs)).map (fun fr => fr.total_cost)
      = rs.map (fun m => m.total_cost.getD (medTC rs)) ∧
    (fillZero (fillTotalCost rs)).map (fun fr =>
        (fr.promised_delivery_days, fr.actual_delivery_days, fr.delivery_cost_inr))
      = rs.map (fun m =>
          (m.promised_delivery_days.getD 0, m.actual_delivery_days.getD 0,
           m.delivery_cost_inr.getD 0)) := by
  have hne : (rs.filterMap (fun m => m.total_cost)).isEmpty = false := by
    cases hc : rs.filterMap (fun m => m.total_cost) with
    | nil => exact absurd hc hpop
    | cons a l => rfl
  have hfill : fillTotalCost rs = rs.map (fun m =>
      { m with total_cost := some (m.total_cost.getD (medTC rs)) }) := by
    simp [fillTotalCost, hne, medTC]
  refine ⟨?_, hfill, ?_, ?_⟩
  · rw [totalCost, cost_columns, sum_filter_eq]
    refine congrArg List.sum (List.map_congr_left ?_)
    intro c _
    by_cases h1 : c.endsWith "_inr"
    · by_cases h2 : c = "order_id"
      · simp [h1, h2]
      · simp [h1, h2]
    · simp [h1]
  · rw [fillZero, hfill, List.map_map, List.map_map]
    rfl
  · rw [fillZero, hfill, List.map_map, List.map_map]
    rfl

/-- Concrete cost table, cost record and merged rows for the C7 witness. -/
def costTableW : CostTable :=
  { columns := ["order_id", "fuel_cost_inr", "toll_cost_inr", "handling_units"]
    rows := [{ order_id := "o1",
               values := [("fuel_cost_inr", 10), ("toll_cost_inr", 4),
                          ("handling_units", 100)] }] }

/-- Merged rows for the C7 witness: one populated `total_cost`, one
missing, one missing delivery field. -/
def mergedRowsW : List MergedRow :=
  [{ route := some "R1", order_id := "o1", distance_km := 5,
     traffic_delay_minutes := 2, weather_impact := 1,
     delivery_status := some "On-Time", promised_delivery_days := some 3,
     actual_delivery_days := some 3, delivery_cost_inr := some 7,
     total_cost := some 14 },
   { route := some "R2", order_id := "o2", distance_km := 6,
     traffic_delay_minutes := 0, weather_impact := 0,
     delivery_status := none, promised_delivery_days := none,
     actual_delivery_days := none, delivery_cost_inr := none,
     total_cost := none }]

/-- Witness for C7 at concrete tables: the populated value survives, the
missing `total_cost` becomes the median (14), and the missing delivery
fields become 0. -/
theorem claim_C7_witness :
    totalCost costTableW (costTableW.rows.getD 0 ⟨"", []⟩)
      = (costTableW.columns.map (fun c =>
          if c.endsWith "_inr" = true ∧ c ≠ "order_id"
          then lookupD (costTableW.rows.getD 0 ⟨"", []⟩).values c else 0)).sum ∧
    fillTotalCost mergedRowsW = mergedRowsW.map (fun m =>
      { m with total_cost := some (m.total_cost.getD (medTC mergedRowsW)) }) ∧
    (fillZero (fillTotalCost mergedRowsW)).map (fun fr => fr.total_cost)
      = mergedRowsW.map (fun m => m.total_cost.getD (medTC mergedRowsW)) ∧
    (fillZero (fillTotalCost mergedRowsW)).map (fun fr =>
        (fr.promised_delivery_days, fr.actual_delivery_days, fr.delivery_cost_inr))
      = mergedRowsW.map (fun m =>
          (m.promised_delivery_days.getD 0, m.actual_delivery_days.getD 0,
           m.delivery_cost_inr.getD 0)) :=
  claim_C7 costTableW (costTableW.rows.getD 0 ⟨"", []⟩) mergedRowsW (by decide)

/-- Claim C8: the weather labels low/medium/high/severe, compared
case-insensitively, map to 1/2/3/4, and any other or missing label maps
to 0. -/
theorem claim_C8 :
    (∀ s : String, lowerStr s = "low" → weatherOrdinal (some s) = 1) ∧
    (∀ s : String, lowerStr s = "medium" → weatherOrdinal (some s) = 2) ∧
    (∀ s : String, lowerStr s = "high" → weatherOrdinal (some s) = 3) ∧
    (∀ s : String, lowerStr s = "severe" → weatherOrdinal (some s) = 4) ∧
    (∀ s : String, lowerStr s ≠ "low" → lowerStr s ≠ "medium" →
      lowerStr s ≠ "high" → lowerStr s ≠ "severe" →
      weatherOrdinal (some s) = 0) ∧
    weatherOrdinal none = 0 := by
  refine ⟨?_, ?_, ?_, ?_, ?_, ?_⟩
  · intro s h
    simp [weatherOrdinal, weather_mapping, h]
  · intro s h
    simp [weatherOrdinal, weather_mapping, h]
  · intro s h
    simp [weatherOrdinal, weather_mapping, h]
  · intro s h
    simp [weatherOrdinal, weather_mapping, h]
  · intro s h1 h2 h3 h4
    simp [weatherOrdinal, weather_mapping, h1, h2, h3, h4]
  · rfl

/-- Witness for C8 at the spec's scenario labels: `"Severe"` → 4,
`"unknown"` → 0, missing → 0. -/
theorem claim_C8_witness :
    weatherOrdinal (some "Severe") = 4 ∧ weatherOrdinal (some "unknown") = 0 ∧
    weatherOrdinal none = 0 := by
  refine ⟨?_, ?_, claim_C8.2.2.2.2.2⟩
  · exact claim_C8.2.2.2.1 "Severe" (by decide)
  · exact claim_C8.2.2.2.2.1 "unknown" (by decide) (by decide) (by decide)
      (by decide)

/-! ## Candidate generation and scoring (lines 94-146 of src/app.py) -/

/-- One entry of the `options` list built at lines 117-130. -/
structure OptionRow where
  warehouse : String
  vehicle : String
  distance_km : ℚ
  traffic_delay_minutes : ℚ
  weather_impact : ℚ
  fuel_efficiency : ℚ
  co2 : ℚ
  cost : ℚ
  inventory_health : ℚ
deriving DecidableEq, Repr

/-- A row of `options_df` after the scoring of lines 135-144. -/
structure ScoredRow extends OptionRow where
  cost_n : ℚ
  delay_risk : ℚ
  distance_n : ℚ
  co2_n : ℚ
  inventory_n : ℚ
  fulfillment_score : ℚ
deriving DecidableEq, Repr

/-- Lines 96-99: `available_wh`, the warehouses matching the product with
stock strictly above the reorder level. -/
def availableWh (warehouse : List Warehouse) (product : String) :
    List Warehouse :=
  warehouse.filter (fun w =>
    w.product_category == product && decide (w.reorder_level < w.current_stock_units))

/-- Line 106: `routes[routes["route"].str.contains(destination, case=False,
na=False)]` — rows whose label matches the destination, interpreted (per
the `regex=True` default) as a case-insensitive regular expression, with
rows lacking a label excluded (`na=False`).  The regex semantics is
embedded for the literal-and-dot fragment (`strContainsRe`). -/
def routeDataFor (rs : List FinalRoute) (destination : String) :
    List FinalRoute :=
  rs.filter (fun r =>
    match r.route with
    | none => false
    | some s => strContainsRe s destination)

/-- Lines 120-130: the candidate for one (warehouse, vehicle) pair, carrying
the request-level route aggregates. -/
def mkOption (w : Warehouse) (v : Vehicle)
    (avg_distance avg_traffic avg_weather avg_cost : ℚ) : OptionRow :=
  { warehouse := w.location
    vehicle := v.vehicle_type
    distance_km := avg_distance
    traffic_delay_minutes := avg_traffic
    weather_impact := avg_weather
    fuel_efficiency := v.fuel_efficiency_km_per_l
    co2 := v.co2_emissions_kg_per_km * avg_distance
    cost := avg_cost
    inventory_health := w.current_stock_units - w.reorder_level }

/-- Lines 117-130: the nested loop over `available_wh` and `fleet`. -/
def buildOptions (avail : List Warehouse) (fleet : List Vehicle)
    (avg_distance avg_traffic avg_weather avg_cost : ℚ) : List OptionRow :=
  avail.flatMap (fun w => fleet.map (fun v =>
    mkOption w v avg_distance avg_traffic avg_weather avg_cost))

/-- Lines 141-144: the composite score
`0.35*cost_n + 0.25*delay_risk + 0.20*distance_n + 0.10*co2_n +
0.10*inventory_n`. -/
def fulfillmentScore (cost_n delay_risk distance_n co2_n inventory_n : ℚ) : ℚ :=
  0.35 * cost_n + 0.25 * delay_risk + 0.20 * distance_n +
    0.10 * co2_n + 0.10 * inventory_n

/-- Lines 135-144 for one row: each feature is normalized against its whole
column of `options_df`, `inventory_n` is `1 - normalize(inventory_health)`,
and the composite score is attached. -/
def scoreRow (opts : List OptionRow) (o : OptionRow) : ScoredRow :=
  let cost_n := normEntry (opts.map (fun p => p.cost)) o.cost
  let delay_risk := normEntry
    (opts.map (fun p => p.traffic_delay_minutes + p.weather_impact))
    (o.traffic_delay_minutes + o.weather_impact)
  let distance_n := normEntry (opts.map (fun p => p.distance_km)) o.distance_km
  let co2_n := normEntry (opts.map (fun p => p.co2)) o.co2
  let inventory_n :=
    1 - normEntry (opts.map (fun p => p.inventory_health)) o.inventory_health
  { toOptionRow := o
    cost_n := cost_n
    delay_risk := delay_risk
    distance_n := distance_n
    co2_n := co2_n
    inventory_n := inventory_n
    fulfillment_score :=
      fulfillmentScore cost_n delay_risk distance_n co2_n inventory_n }

/-- Lines 135-144 for the whole table. -/
def scoreTable (opts : List OptionRow) : List ScoredRow :=
  opts.map (scoreRow opts)

/-! ## Selection (line 146 of src/app.py)

`options_df.sort_values("fulfillment_score")` uses pandas' default
`kind='quicksort'`, which is NOT stable: the only contract is that the
output is a permutation of the rows, ascending in `fulfillment_score`;
the relative order of rows with equal scores is unspecified.  Line 146 is
therefore modelled by the relation `sortedByScore` — `.iloc[0]` is the
head of any admissible sorted permutation — and the selection theorems
quantify over every admissible outcome. -/

/-- The contract of `sort_values("fulfillment_score")` with the default
(non-stable) `kind='quicksort'`: `p` is a permutation of the table `l`,
ascending in `fulfillment_score`.  Nothing constrains the order of rows
with equal scores. -/
def sortedByScore (l p : List ScoredRow) : Prop :=
  l.Perm p ∧
    p.Pairwise (fun a b => a.fulfillment_score ≤ b.fulfillment_score)

/-- Ascending insertion of a scored row by `fulfillment_score`. -/
def insertByScore (c : ScoredRow) : List ScoredRow → List ScoredRow
  | [] => [c]
  | d :: ds =>
    if c.fulfillment_score ≤ d.fulfillment_score then c :: d :: ds
    else d :: insertByScore c ds

/-- One deterministic refinement of the `sortedByScore` contract (an
insertion sort); `sort_values_sortedByScore` below proves it admissible.
It stands in for the unspecified concrete sort only where a function is
needed (`submitBest`); no theorem relies on its tie order. -/
def sort_values (l : List ScoredRow) : List ScoredRow :=
  l.foldr insertByScore []

/-- Line 146 as a function: the first row of one admissible sorted
permutation (`none` only on an empty table, where `.iloc[0]` would
raise). -/
def best_option (l : List ScoredRow) : Option ScoredRow :=
  (sort_values l).head?

/-- The selection rule in the words of the specification: the first row in
generation order whose `fulfillment_score` is less than or equal to every
row's score (i.e. the first row achieving the global minimum). -/
def selectionSpec (l : List ScoredRow) : Option ScoredRow :=
  l.find? (fun c =>
    l.all (fun d => decide (c.fulfillment_score ≤ d.fulfillment_score)))

/-! ## The submit handler (lines 94-146 of src/app.py) -/

/-- Outcome of one "Find Best Fulfillment Option" action. -/
inductive SubmitResult where
  | noInventory : SubmitResult
  | noRoute : SubmitResult
  | ok : List ScoredRow → SubmitResult
deriving DecidableEq, Repr

/-- Lines 94-144: filter warehouses, filter routes, aggregate the route
metrics by mean, build the warehouse × vehicle cross product and score it.
`priority` is read from the sidebar (line 84) but never consulted. -/
def submitRequest (warehouse : List Warehouse) (fleet : List Vehicle)
    (routes : List FinalRoute) (product priority destination : String) :
    SubmitResult :=
  let available_wh := availableWh warehouse product
  if available_wh.isEmpty then .noInventory
  else
    let route_data := routeDataFor routes destination
    if route_data.isEmpty then .noRoute
    else
      let avg_distance := meanQ (route_data.map (fun r => r.distance_km))
      let avg_traffic := meanQ (route_data.map (fun r => r.traffic_delay_minutes))
      let avg_weather := meanQ (route_data.map (fun r => r.weather_impact))
      let avg_cost := meanQ (route_data.map (fun r => r.total_cost))
      .ok (scoreTable
        (buildOptions available_wh fleet avg_distance avg_traffic avg_weather avg_cost))

/-- Column-level reading of `scoreTable`: each derived column of
`options_df` is exactly the source's column-wise `normalize` expression
(lines 135-139), so the row-wise `scoreRow` is the column-wise scoring of
the source. -/
theorem scoreTable_columns (opts : List OptionRow) :
    (scoreTable opts).map (fun c => c.cost_n)
      = normalize (opts.map (fun p => p.cost)) ∧
    (scoreTable opts).map (fun c => c.delay_risk)
      = normalize (opts.map (fun p =>
          p.traffic_delay_minutes + p.weather_impact)) ∧
    (scoreTable opts).map (fun c => c.distance_n)
      = normalize (opts.map (fun p => p.distance_km)) ∧
    (scoreTable opts).map (fun c => c.co2_n)
      = normalize (opts.map (fun p => p.co2)) ∧
    (scoreTable opts).map (fun c => c.inventory_n)
      = (normalize (opts.map (fun p => p.inventory_health))).map
          (fun x => 1 - x) := by
  refine ⟨?_, ?_, ?_, ?_, ?_⟩ <;>
    · simp only [scoreTable, normalize, List.map_map]
      rfl

/-! ## Selection lemmas -/

theorem insertByScore_perm (c : ScoredRow) (l : List ScoredRow) :
    (insertByScore c l).Perm (c :: l) := by
  induction l with
  | nil => exact List.Perm.refl _
  | cons d ds ih =>
    by_cases h : c.fulfillment_score ≤ d.fulfillment_score
    · simp only [insertByScore, if_pos h]
      exact List.Perm.refl _
    · simp only [insertByScore, if_neg h]
      exact (List.Perm.cons d ih).trans (List.Perm.swap c d ds)

theorem sort_values_perm (l : List ScoredRow) : (sort_values l).Perm l := by
  induction l with
  | nil => exact List.Perm.refl _
  | cons c ds ih =>
    have h1 : sort_values (c :: ds) = insertByScore c (sort_values ds) := rfl
    rw [h1]
    exact (insertByScore_perm c (sort_values ds)).trans (List.Perm.cons c ih)

theorem insertByScore_sorted {c : ScoredRow} {l : List ScoredRow}
    (h : l.Pairwise (fun a b => a.fulfillment_score ≤ b.fulfillment_score)) :
    (insertByScore c l).Pairwise
      (fun a b => a.fulfillment_score ≤ b.fulfillment_score) := by
  induction l with
  | nil => simp [insertByScore]
  | cons d ds ih =>
    rw [List.pairwise_cons] at h
    obtain ⟨hd, hds⟩ := h
    by_cases hcd : c.fulfillment_score ≤ d.fulfillment_score
    · simp only [insertByScore, if_pos hcd]
      rw [List.pairwise_cons]
      refine ⟨?_, ?_⟩
      · intro y hy
        rcases List.mem_cons.mp hy with rfl | hy'
        · exact hcd
        · exact le_trans hcd (hd y hy')
      · rw [List.pairwise_cons]
        exact ⟨hd, hds⟩
    · simp only [insertByScore, if_neg hcd]
      rw [List.pairwise_cons]
      refine ⟨?_, ih hds⟩
      intro y hy
      have hy2 : y ∈ c :: ds := (insertByScore_perm c ds).mem_iff.mp hy
      rcases List.mem_cons.mp hy2 with rfl | hy'
      · exact le_of_lt (lt_of_not_le hcd)
      · exact hd y hy'

theorem sort_values_sorted (l : List ScoredRow) :
    (sort_values l).Pairwise
      (fun a b => a.fulfillment_score ≤ b.fulfillment_score) := by
  induction l with
  | nil => simp [sort_values]
  | cons c ds ih =>
    have h1 : sort_values (c :: ds) = insertByScore c (sort_values ds) := rfl
    rw [h1]
    exact insertByScore_sorted ih

/-- The insertion-sort implementation satisfies the pandas sort contract:
it is one admissible outcome of line 146's sort. -/
theorem sort_values_sortedByScore (l : List ScoredRow) :
    sortedByScore l (sort_values l) :=
  ⟨(sort_values_perm l).symm, sort_values_sorted l⟩

/-- A concrete scored row for the C1 witness and counterexample. -/
def scoredW (name : String) (s : ℚ) : ScoredRow :=
  { warehouse := name, vehicle := "Truck", distance_km := 1,
    traffic_delay_minutes := 1, weather_impact := 0, fuel_efficiency := 10,
    co2 := 2, cost := 3, inventory_health := 4, cost_n := 0, delay_risk := 0,
    distance_n := 0, co2_n := 0, inventory_n := 0, fulfillment_score := s }

/-- Counterexample to C1 as stated: on a two-row table whose rows tie at
the minimal score, the reversed table is also an admissible outcome of the
non-stable sort of line 146, and its first row differs from the
first-in-generation-order minimizer demanded by the claim — the tie-break
is not guaranteed by the program. -/
theorem claim_C1_counterexample :
    sortedByScore [scoredW "A" 1, scoredW "B" 1]
      [scoredW "B" 1, scoredW "A" 1] ∧
    [scoredW "B" 1, scoredW "A" 1].head? = some (scoredW "B" 1) ∧
    selectionSpec [scoredW "A" 1, scoredW "B" 1] = some (scoredW "A" 1) ∧
    scoredW "B" 1 ≠ scoredW "A" 1 := by
  refine ⟨⟨List.Perm.swap (scoredW "B" 1) (scoredW "A" 1) [], ?_⟩,
    rfl, ?_, ?_⟩
  · decide
  · decide
  · decide

/-- Claim C1 (amended): on a non-empty scored table, every admissible
outcome of the sort of line 146 puts a row achieving the global minimum of
`fulfillment_score` first, so the selection step returns a global
minimizer; which of several tied minima is returned is unspecified. -/
theorem claim_C1 (l p : List ScoredRow) (hne : l ≠ [])
    (hs : sortedByScore l p) :
    ∃ c, p.head? = some c ∧ c ∈ l ∧
      ∀ d ∈ l, c.fulfillment_score ≤ d.fulfillment_score := by
  obtain ⟨hperm, hsort⟩ := hs
  cases p with
  | nil => exact absurd hperm.eq_nil hne
  | cons c rest =>
    refine ⟨c, rfl, hperm.mem_iff.mpr (List.mem_cons_self c rest), ?_⟩
    intro d hd
    have hdp : d ∈ c :: rest := hperm.mem_iff.mp hd
    rcases List.mem_cons.mp hdp with rfl | hdr
    · exact le_refl _
    · exact (List.pairwise_cons.mp hsort).1 d hdr

/-- Witness for amended C1 at a concrete table and a concrete admissible
sorted permutation of it. -/
theorem claim_C1_witness :
    ∃ c, [scoredW "B" 1, scoredW "A" 2].head? = some c ∧
      c ∈ [scoredW "A" 2, scoredW "B" 1] ∧
      ∀ d ∈ [scoredW "A" 2, scoredW "B" 1],
        c.fulfillment_score ≤ d.fulfillment_score :=
  claim_C1 [scoredW "A" 2, scoredW "B" 1] [scoredW "B" 1, scoredW "A" 2]
    (by decide)
    ⟨List.Perm.swap (scoredW "B" 1) (scoredW "A" 2) [], by decide⟩

/-! ## The remaining claims -/

/-- Claim C3: the five weights sum exactly to 1, and the composite score of
features lying in `[0, 1]` lies in `[0, 1]`. -/
theorem claim_C3 (a b c d e : ℚ)
    (ha : 0 ≤ a ∧ a ≤ 1) (hb : 0 ≤ b ∧ b ≤ 1) (hc : 0 ≤ c ∧ c ≤ 1)
    (hd : 0 ≤ d ∧ d ≤ 1) (he : 0 ≤ e ∧ e ≤ 1) :
    (0.35 : ℚ) + 0.25 + 0.20 + 0.10 + 0.10 = 1 ∧
    0 ≤ fulfillmentScore a b c d e ∧ fulfillmentScore a b c d e ≤ 1 := by
  refine ⟨by norm_num, ?_, ?_⟩
  · rw [fulfillmentScore]
    have h1 : (0 : ℚ) ≤ 0.35 * a := by nlinarith [ha.1]
    have h2 : (0 : ℚ) ≤ 0.25 * b := by nlinarith [hb.1]
    have h3 : (0 : ℚ) ≤ 0.20 * c := by nlinarith [hc.1]
    have h4 : (0 : ℚ) ≤ 0.10 * d := by nlinarith [hd.1]
    have h5 : (0 : ℚ) ≤ 0.10 * e := by nlinarith [he.1]
    linarith
  · rw [fulfillmentScore]
    have h1 : (0.35 : ℚ) * a ≤ 0.35 := by nlinarith [ha.2]
    have h2 : (0.25 : ℚ) * b ≤ 0.25 := by nlinarith [hb.2]
    have h3 : (0.20 : ℚ) * c ≤ 0.20 := by nlinarith [hc.2]
    have h4 : (0.10 : ℚ) * d ≤ 0.10 := by nlinarith [hd.2]
    have h5 : (0.10 : ℚ) * e ≤ 0.10 := by nlinarith [he.2]
    linarith

/-- Witness for C3 with every feature equal to 1. -/
theorem claim_C3_witness :
    (0.35 : ℚ) + 0.25 + 0.20 + 0.10 + 0.10 = 1 ∧
    0 ≤ fulfillmentScore 1 1 1 1 1 ∧ fulfillmentScore 1 1 1 1 1 ≤ 1 :=
  claim_C3 1 1 1 1 1 ⟨by decide, by decide⟩ ⟨by decide, by decide⟩
    ⟨by decide, by decide⟩ ⟨by decide, by decide⟩ ⟨by decide, by decide⟩

/-- The selected best candidate of a submit outcome. -/
def submitBest : SubmitResult → Option ScoredRow
  | .ok t => best_option t
  | _ => none

/-- Claim C9: the priority input has no effect — two requests differing only
in priority produce the same outcome (hence the same scored table, scores
and best candidate). -/
theorem claim_C9 (wh : List Warehouse) (fleet : List Vehicle)
    (rs : List FinalRoute) (product p1 p2 destination : String) :
    submitRequest wh fleet rs product p1 destination
      = submitRequest wh fleet rs product p2 destination ∧
    submitBest (submitRequest wh fleet rs product p1 destination)
      = submitBest (submitRequest wh fleet rs product p2 destination) :=
  ⟨rfl, rfl⟩

/-- Claim C5: a warehouse is eligible iff it matches the product and its
stock strictly exceeds its reorder level; with no eligible warehouse the
request ends in the no-inventory outcome and no candidates exist. -/
theorem claim_C5 (wh : List Warehouse) (fleet : List Vehicle)
    (rs : List FinalRoute) (product priority destination : String) :
    (∀ w, w ∈ availableWh wh product ↔
      (w ∈ wh ∧ w.product_category = product ∧
        w.reorder_level < w.current_stock_units)) ∧
    (availableWh wh product = [] →
      submitRequest wh fleet rs product priority destination = .noInventory) := by
  constructor
  · intro w
    rw [availableWh, List.mem_filter]
    simp [and_assoc]
  · intro hemp
    simp [submitRequest, hemp]

/-- A warehouse stocking a different product, for the C5 witness. -/
def whOther : Warehouse :=
  { location := "Pune", product_category := "Furniture",
    current_stock_units := 120, reorder_level := 40 }

/-- Witness for C5: a catalog without the requested product yields the
no-inventory outcome. -/
theorem claim_C5_witness :
    submitRequest [whOther] [] [] "Electronics" "Express" "Mumbai"
      = .noInventory :=
  (claim_C5 [whOther] [] [] "Electronics" "Express" "Mumbai").2 rfl

/-- A route row whose label regex-matches the pattern `"a.c"` without
containing it as a literal substring. -/
def routeRe : FinalRoute :=
  { route := some "ABC Route", order_id := "o9", distance_km := 1,
    traffic_delay_minutes := 0, weather_impact := 0,
    delivery_status := "On-Time", promised_delivery_days := 1,
    actual_delivery_days := 1, delivery_cost_inr := 1, total_cost := 1 }

/-- Counterexample to C6 as stated: `str.contains` defaults to
`regex=True`, so the destination is a regular expression.  For the
destination `"a.c"` the program keeps the row labelled `"ABC Route"`
(`.` matches the `b`), although that label does not contain `"a.c"` as a
case-insensitive substring — the rows kept are not exactly the
substring-containing rows. -/
theorem claim_C6_counterexample :
    routeDataFor [routeRe] "a.c" = [routeRe] ∧
    ¬ ∃ p t, "ABC Route".data.map Char.toLower
        = p ++ "a.c".data.map Char.toLower ++ t := by
  constructor
  · decide
  · intro hsub
    have htrue : hasSubL ("ABC Route".data.map Char.toLower)
        ("a.c".data.map Char.toLower) = true :=
      (hasSubL_iff _ _).mpr hsub
    have hfalse : hasSubL ("ABC Route".data.map Char.toLower)
        ("a.c".data.map Char.toLower) = false := by decide
    rw [hfalse] at htrue
    exact absurd htrue (by decide)

/-- Claim C6 (amended): for a destination free of regular-expression
metacharacters — on which the `regex=True` matching of line 106 degenerates
to literal matching — the matching routes are exactly the rows whose label
contains the destination as a case-insensitive substring (missing labels
excluded); and with eligible warehouses but no matching route the request
ends in the no-route outcome. -/
theorem claim_C6 (wh : List Warehouse) (fleet : List Vehicle)
    (rs : List FinalRoute) (product priority destination : String)
    (hmeta : ∀ c ∈ destination.data.map Char.toLower, isReMeta c = false) :
    (∀ r, r ∈ routeDataFor rs destination ↔
      (r ∈ rs ∧ ∃ s, r.route = some s ∧
        ∃ p t, s.data.map Char.toLower
          = p ++ destination.data.map Char.toLower ++ t)) ∧
    (availableWh wh product ≠ [] → routeDataFor rs destination = [] →
      submitRequest wh fleet rs product priority destination = .noRoute) := by
  have hdot : ∀ c ∈ destination.data.map Char.toLower, (c == '.') = false := by
    intro c hc
    have hm := hmeta c hc
    cases h : (c == '.') with
    | false => rfl
    | true =>
      rw [isReMeta, h] at hm
      simp at hm
  constructor
  · intro r
    rw [routeDataFor, List.mem_filter]
    refine and_congr_right fun _ => ?_
    cases hr : r.route with
    | none => simp [hr]
    | some s => simp [hr, strContainsRe, reHasSub_eq_hasSubL hdot, hasSubL_iff]
  · intro hav hemp
    have h1 : (availableWh wh product).isEmpty = false := by
      cases hc : availableWh wh product with
      | nil => exact absurd hc hav
      | cons a l => rfl
    simp [submitRequest, h1, hemp]

/-- An eligible warehouse for the submit-level witnesses. -/
def whElec : Warehouse :=
  { location := "Delhi", product_category := "Electronics",
    current_stock_units := 120, reorder_level := 40 }

/-- Witness for amended C6: an eligible warehouse but a metacharacter-free
destination matching no route label yields the no-route outcome. -/
theorem claim_C6_witness :
    submitRequest [whElec] [] [] "Electronics" "Express" "Mumbai"
      = .noRoute :=
  (claim_C6 [whElec] [] [] "Electronics" "Express" "Mumbai"
    (by decide)).2 (by decide) rfl

/-- The scored table of a successful submit, spelled out. -/
theorem submit_ok_eq {wh : List Warehouse} {fleet : List Vehicle}
    {rs : List FinalRoute} {product priority destination : String}
    {t : List ScoredRow}
    (h : submitRequest wh fleet rs product priority destination = .ok t) :
    t = scoreTable (buildOptions (availableWh wh product) fleet
      (meanQ ((routeDataFor rs destination).map (fun r => r.distance_km)))
      (meanQ ((routeDataFor rs destination).map (fun r => r.traffic_delay_minutes)))
      (meanQ ((routeDataFor rs destination).map (fun r => r.weather_impact)))
      (meanQ ((routeDataFor rs destination).map (fun r => r.total_cost)))) := by
  by_cases h1 : (availableWh wh product).isEmpty
  · simp [submitRequest, h1] at h
  · by_cases h2 : (routeDataFor rs destination).isEmpty
    · simp [submitRequest, h1, h2] at h
    · simp [submitRequest, h1, h2] at h
      exact h.symm

theorem sum_map_const {α : Type} (l : List α) (n : ℕ) :
    (l.map (fun _ => n)).sum = l.length * n := by
  induction l with
  | nil => simp
  | cons a l ih =>
    simp only [List.map_cons, List.sum_cons, ih, List.length_cons]
    ring

theorem length_buildOptions (avail : List Warehouse) (fleet : List Vehicle)
    (q1 q2 q3 q4 : ℚ) :
    (buildOptions avail fleet q1 q2 q3 q4).length
      = avail.length * fleet.length := by
  induction avail with
  | nil => simp [buildOptions]
  | cons w ws ih =>
    simp only [buildOptions, List.flatMap_cons, List.length_append,
      List.length_map, List.length_cons] at *
    rw [ih]
    ring

theorem map_pair_buildOptions (avail : List Warehouse) (fleet : List Vehicle)
    (q1 q2 q3 q4 : ℚ) :
    (buildOptions avail fleet q1 q2 q3 q4).map (fun o => (o.warehouse, o.vehicle))
      = avail.flatMap (fun w => fleet.map (fun v =>
          (w.location, v.vehicle_type))) := by
  induction avail with
  | nil => rfl
  | cons w ws ih =>
    simp only [buildOptions, List.flatMap_cons, List.map_append,
      List.map_map] at *
    rw [ih]
    rfl

theorem scoreTable_map_pair (opts : List OptionRow) :
    (scoreTable opts).map (fun c => (c.warehouse, c.vehicle))
      = opts.map (fun o => (o.warehouse, o.vehicle)) := by
  simp only [scoreTable, List.map_map]
  rfl

/-- Claim C4: a successful request yields exactly one candidate per
(eligible warehouse, fleet vehicle) pair — the count is the product of the
two list lengths and the (warehouse, vehicle) column is exactly the
cross-product in generation order. -/
theorem claim_C4 (wh : List Warehouse) (fleet : List Vehicle)
    (rs : List FinalRoute) (product priority destination : String)
    (t : List ScoredRow)
    (h : submitRequest wh fleet rs product priority destination = .ok t) :
    t.length = (availableWh wh product).length * fleet.length ∧
    t.map (fun c => (c.warehouse, c.vehicle))
      = (availableWh wh product).flatMap (fun w => fleet.map (fun v =>
          (w.location, v.vehicle_type))) := by
  have ht := submit_ok_eq h
  subst ht
  constructor
  · rw [scoreTable, List.length_map, length_buildOptions]
  · rw [scoreTable_map_pair, map_pair_buildOptions]

theorem mem_buildOptions_fields {avail : List Warehouse} {fleet : List Vehicle}
    {q1 q2 q3 q4 : ℚ} {o : OptionRow}
    (ho : o ∈ buildOptions avail fleet q1 q2 q3 q4) :
    o.distance_km = q1 ∧ o.traffic_delay_minutes = q2 ∧
    o.weather_impact = q3 ∧ o.cost = q4 := by
  simp only [buildOptions, List.mem_flatMap, List.mem_map] at ho
  obtain ⟨w, _, v, _, rfl⟩ := ho
  exact ⟨rfl, rfl, rfl, rfl⟩

/-- Claim C10: because the route aggregates are shared by every candidate of
a request, the cost, delay-risk and distance features normalize to 0 on
every row; the composite score degenerates to
`0.10·co2_n + 0.10·inventory_n`, lies in `[0, 0.2]`, and the candidates are
differentiated only by the equally weighted CO₂ and inventory features. -/
theorem claim_C10 (wh : List Warehouse) (fleet : List Vehicle)
    (rs : List FinalRoute) (product priority destination : String)
    (t : List ScoredRow)
    (h : submitRequest wh fleet rs product priority destination = .ok t) :
    ∀ c ∈ t, c.cost_n = 0 ∧ c.delay_risk = 0 ∧ c.distance_n = 0 ∧
      c.fulfillment_score = 0.10 * c.co2_n + 0.10 * c.inventory_n ∧
      0 ≤ c.fulfillment_score ∧ c.fulfillment_score ≤ 0.2 := by
  have ht := submit_ok_eq h
  subst ht
  generalize availableWh wh product = avail
  generalize meanQ ((routeDataFor rs destination).map (fun r => r.distance_km)) = q1
  generalize meanQ ((routeDataFor rs destination).map
    (fun r => r.traffic_delay_minutes)) = q2
  generalize meanQ ((routeDataFor rs destination).map
    (fun r => r.weather_impact)) = q3
  generalize meanQ ((routeDataFor rs destination).map (fun r => r.total_cost)) = q4
  set opts := buildOptions avail fleet q1 q2 q3 q4 with hopts
  intro c hc
  simp only [scoreTable, List.mem_map] at hc
  obtain ⟨o, ho, rfl⟩ := hc
  have hcost_col : ∀ x ∈ opts.map (fun p => p.cost), x = q4 := by
    intro x hx
    obtain ⟨p, hp, rfl⟩ := List.mem_map.mp hx
    rw [hopts] at hp
    exact (mem_buildOptions_fields hp).2.2.2
  have hdelay_col : ∀ x ∈ opts.map
      (fun p => p.traffic_delay_minutes + p.weather_impact), x = q2 + q3 := by
    intro x hx
    obtain ⟨p, hp, rfl⟩ := List.mem_map.mp hx
    rw [hopts] at hp
    obtain ⟨_, h2, h3, _⟩ := mem_buildOptions_fields hp
    rw [h2, h3]
  have hdist_col : ∀ x ∈ opts.map (fun p => p.distance_km), x = q1 := by
    intro x hx
    obtain ⟨p, hp, rfl⟩ := List.mem_map.mp hx
    rw [hopts] at hp
    exact (mem_buildOptions_fields hp).1
  have hcn : normEntry (opts.map (fun p => p.cost)) o.cost = 0 :=
    normEntry_const (List.mem_map_of_mem _ ho) hcost_col
  have hdn : normEntry
      (opts.map (fun p => p.traffic_delay_minutes + p.weather_impact))
      (o.traffic_delay_minutes + o.weather_impact) = 0 :=
    normEntry_const (List.mem_map_of_mem _ ho) hdelay_col
  have hdistn : normEntry (opts.map (fun p => p.distance_km)) o.distance_km = 0 :=
    normEntry_const (List.mem_map_of_mem _ ho) hdist_col
  have hmco2 : o.co2 ∈ opts.map (fun p => p.co2) := List.mem_map_of_mem _ ho
  have hminv : o.inventory_health ∈ opts.map (fun p => p.inventory_health) :=
    List.mem_map_of_mem _ ho
  have hc1 := normEntry_nonneg hmco2
  have hc2 := normEntry_le_one hmco2
  have hi1 := normEntry_nonneg hminv
  have hi2 := normEntry_le_one hminv
  simp only [scoreRow]
  refine ⟨hcn, hdn, hdistn, ?_, ?_, ?_⟩
  · rw [hcn, hdn, hdistn, fulfillmentScore]
    ring
  · rw [hcn, hdn, hdistn, fulfillmentScore]
    linarith
  · rw [hcn, hdn, hdistn, fulfillmentScore]
    linarith

/-! ## Concrete submit-level witness data -/

/-- A one-vehicle fleet for the submit-level witnesses. -/
def fleetW : List Vehicle :=
  [{ vehicle_type := "Truck", fuel_efficiency_km_per_l := 10,
     co2_emissions_kg_per_km := 2 }]

/-- A one-row enriched route table matching destination "mumbai". -/
def routesW : List FinalRoute :=
  [{ route := some "Delhi-Mumbai", order_id := "o1", distance_km := 100,
     traffic_delay_minutes := 5, weather_impact := 1,
     delivery_status := "On-Time", promised_delivery_days := 3,
     actual_delivery_days := 3, delivery_cost_inr := 7, total_cost := 14 }]

/-- The scored table the submit handler produces on the witness data —
written exactly as the success branch of `submitRequest` builds it. -/
def tW : List ScoredRow :=
  scoreTable (buildOptions (availableWh [whElec] "Electronics") fleetW
    (meanQ ((routeDataFor routesW "mumbai").map (fun r => r.distance_km)))
    (meanQ ((routeDataFor routesW "mumbai").map (fun r => r.traffic_delay_minutes)))
    (meanQ ((routeDataFor routesW "mumbai").map (fun r => r.weather_impact)))
    (meanQ ((routeDataFor routesW "mumbai").map (fun r => r.total_cost))))

/-- Witness for C4 on concrete data: one eligible warehouse × one vehicle
gives exactly one candidate, labelled by the cross product. -/
theorem claim_C4_witness :
    tW.length = (availableWh [whElec] "Electronics").length * fleetW.length ∧
    tW.map (fun c => (c.warehouse, c.vehicle))
      = (availableWh [whElec] "Electronics").flatMap (fun w => fleetW.map
          (fun v => (w.location, v.vehicle_type))) :=
  claim_C4 [whElec] fleetW routesW "Electronics" "Express" "mumbai" tW rfl

/-- Witness for C10 on concrete data: the (single) scored row of the
witness table has zero cost/delay/distance features and a degenerate score
in `[0, 0.2]`. -/
theorem claim_C10_witness :
    ∃ c, c ∈ tW ∧ (c.cost_n = 0 ∧ c.delay_risk = 0 ∧ c.distance_n = 0 ∧
      c.fulfillment_score = 0.10 * c.co2_n + 0.10 * c.inventory_n ∧
      0 ≤ c.fulfillment_score ∧ c.fulfillment_score ≤ 0.2) := by
  have h0 : tW ≠ [] := by decide
  have hm := List.head_mem h0
  exact ⟨tW.head h0, hm,
    claim_C10 [whElec] fleetW routesW "Electronics" "Express" "mumbai" tW rfl
      (tW.head h0) hm⟩

end NexGen
